import Mathlib

/-!
Verification development for the quantum tic-tac-toe engine.

The data model and the operations below are shallow embeddings of the
JavaScript sources (`src/types/gameTypes.js`, `src/hooks/useGameState.js`,
`src/constants/gameConstants.js`).  JavaScript exceptions are modelled by
`Option` results (`none` means the operation throws and leaves no new
state), JavaScript `null`/`undefined` by `Option.none`, and machine
numbers by `Int`/`Nat` (cell indices fit far below any overflow
boundary).  Wall-clock fields (`timestamp`, `Date.now()` based ids) are
not part of any property below and are omitted from the records.

The win evaluator and the move/collapse engine run in a Python API
service that is not part of this repository's sources; definitions for
those parts are modelled from the specification and are marked as such
in their doc comments.
-/

/-- Square display states, from the object SQUARE_STATES in
src/types/gameTypes.js.  The source object defines only QUANTUM and
CLASSICAL; the sentinel SQUARE_STATES.EMPTY used by the board builders
evaluates to JavaScript undefined, and is modelled as a third
constructor here. -/
inductive SquareState where
  | empty
  | quantum
  | classical
deriving DecidableEq, Repr

/-- Player constant PLAYERS.X from src/types/gameTypes.js. -/
def PLAYERS.X : String := "X"

/-- Player constant PLAYERS.O from src/types/gameTypes.js. -/
def PLAYERS.O : String := "O"

/-- Lexicographic order on character lists by code point, the
comparison JavaScript's default sort comparator performs on strings
(UTF-16 code units coincide with code points on the ASCII ids and
decimal digit strings the game produces). -/
def charListLt : List Char → List Char → Bool
  | _, [] => false
  | [], _ :: _ => true
  | c :: cs, d :: ds =>
      if c.toNat < d.toNat then true
      else if d.toNat < c.toNat then false
      else charListLt cs ds

/-- JavaScript string comparison a < b as used by the default sort
comparator. -/
def jsStrLt (a b : String) : Bool :=
  charListLt a.data b.data

/-- Embedding of a two-element JavaScript Array.prototype.sort() with the
default comparator, which orders elements by their string conversion: the
pair is swapped exactly when the string for b sorts strictly before the
string for a. -/
def jsSort2 (a b : Int) : List Int :=
  if jsStrLt (toString b) (toString a) then [b, a] else [a, b]

/-- Record type of the class QuantumMove from src/types/gameTypes.js.
Cell indices are Int so that the range checks of isValidSquare are
meaningful; the timestamp field is not modelled. -/
structure QuantumMove where
  id : String
  player : String
  moveNumber : Nat
  squares : List Int
  collapsed : Bool
  finalSquare : Option Int
deriving DecidableEq, Repr

/-- Embedding of the QuantumMove constructor
(src/types/gameTypes.js lines 42 to 55): it throws (here: none) exactly
when the square list does not have length 2 or its two entries are
equal, and otherwise stores the squares sorted by the default JavaScript
sort, with collapsed false and finalSquare null. -/
def QuantumMove.make (player : String) (moveNum : Nat) (squares : List Int) :
    Option QuantumMove :=
  match squares with
  | [a, b] =>
      if a = b then none
      else some
        { id := player ++ toString moveNum
          player := player
          moveNumber := moveNum
          squares := jsSort2 a b
          collapsed := false
          finalSquare := none }
  | _ => none

/-- Embedding of QuantumMove.hasSquare. -/
def QuantumMove.hasSquare (m : QuantumMove) (sq : Int) : Bool :=
  m.squares.contains sq

/-- Embedding of QuantumMove.collapse
(src/types/gameTypes.js lines 63 to 69): it throws (here: none) when the
move does not occupy the given square, and otherwise sets collapsed and
finalSquare.  Note the source performs no check of the collapsed flag. -/
def QuantumMove.collapse (m : QuantumMove) (sq : Int) : Option QuantumMove :=
  if m.hasSquare sq then
    some { m with collapsed := true, finalSquare := some sq }
  else
    none

/-- Embedding of isValidSquare from src/types/gameTypes.js: the
Number.isInteger check is captured by the Int type, the rest is the
range check 0 <= sq <= 8. -/
def isValidSquare (sq : Int) : Bool :=
  decide (0 ≤ sq) && decide (sq ≤ 8)

/-- Embedding of isValidQuantumMove from src/types/gameTypes.js: an
array of exactly 2 valid squares whose first and second entries
differ. -/
def isValidQuantumMove (squares : List Int) : Bool :=
  squares.length == 2 &&
  squares.all isValidSquare &&
  squares.get? 0 != squares.get? 1

/-- Record type of the class Entanglement from src/types/gameTypes.js
(timestamp omitted). -/
structure Entanglement where
  id : String
  move1Id : String
  move2Id : String
  sharedSquare : Nat
deriving DecidableEq, Repr

/-- Embedding of the Entanglement constructor
(src/types/gameTypes.js lines 91 to 100): the two move ids are put in
the order produced by the default JavaScript string sort before being
stored and used to build the id string. -/
def Entanglement.make (move1Id move2Id : String) (sharedSquare : Nat) :
    Entanglement :=
  let first := if jsStrLt move2Id move1Id then move2Id else move1Id
  let second := if jsStrLt move2Id move1Id then move1Id else move2Id
  { id := first ++ "_" ++ second ++ "_" ++ toString sharedSquare
    move1Id := first
    move2Id := second
    sharedSquare := sharedSquare }

/-- Embedding of Entanglement.involves. -/
def Entanglement.involves (e : Entanglement) (moveId : String) : Bool :=
  e.move1Id == moveId || e.move2Id == moveId

/-- Record type of the class EntanglementCycle from
src/types/gameTypes.js (timestamp and the Date.now() based id
omitted). -/
structure EntanglementCycle where
  moveIds : List String
  entanglements : List Entanglement
  triggerMoveId : String
  triggerPlayer : String
deriving DecidableEq, Repr

/-- Embedding of the EntanglementCycle constructor
(src/types/gameTypes.js lines 115 to 122): triggerPlayer is
triggerMoveId.charAt(0), i.e. the first character of the trigger move id
(the empty string when the id is empty). -/
def EntanglementCycle.make (moveIds : List String)
    (entanglements : List Entanglement) (triggerMoveId : String) :
    EntanglementCycle :=
  { moveIds := moveIds
    entanglements := entanglements
    triggerMoveId := triggerMoveId
    triggerPlayer := triggerMoveId.take 1 }

/-- Embedding of EntanglementCycle.getCollapsePlayer
(src/types/gameTypes.js lines 125 to 127). -/
def EntanglementCycle.getCollapsePlayer (c : EntanglementCycle) : String :=
  if c.triggerPlayer = PLAYERS.X then PLAYERS.O else PLAYERS.X

/-- Embedding of EntanglementCycle.size. -/
def EntanglementCycle.size (c : EntanglementCycle) : Nat :=
  c.moveIds.length

/-- Constant BOARD_SIZE from src/types/gameTypes.js and
src/constants/gameConstants.js. -/
def BOARD_SIZE : Nat := 9

/-- Constant WINNING_LINES from src/types/gameTypes.js lines 207 to
211. -/
def WINNING_LINES : List (List Nat) :=
  [[0, 1, 2], [3, 4, 5], [6, 7, 8],
   [0, 3, 6], [1, 4, 7], [2, 5, 8],
   [0, 4, 8], [2, 4, 6]]

/-- Constant MAX_QUANTUM_PER_SQUARE from src/types/gameTypes.js. -/
def MAX_QUANTUM_PER_SQUARE : Nat := 8

/-- Constant MIN_MOVES_FOR_CYCLE from src/types/gameTypes.js. -/
def MIN_MOVES_FOR_CYCLE : Nat := 3

/-- Constant MIN_SQUARES_FOR_MOVE from
src/constants/gameConstants.js. -/
def MIN_SQUARES_FOR_MOVE : Nat := 2

/-- Constant MAX_COLLAPSE_OPTIONS from
src/constants/gameConstants.js. -/
def MAX_COLLAPSE_OPTIONS : Nat := 4

/-- A board cell as built by buildBoardFromAPI in
src/hooks/useGameState.js. -/
structure Cell where
  quantumMoveIds : List String
  classicalMoveId : Option String
  state : SquareState
deriving DecidableEq, Repr

/-- The initial cell of the board builder: no quantum moves, no
classical occupant, empty state. -/
def Cell.emptyCell : Cell :=
  { quantumMoveIds := [], classicalMoveId := none, state := SquareState.empty }

/-- A move record of the JSON game state returned by the Python API, as
read by the hooks in src/hooks/useGameState.js (fields move_id,
collapsed and squares are the ones consumed). -/
structure APIMove where
  move_id : String
  player : String
  squares : List Nat
  collapsed : Bool
deriving DecidableEq, Repr

/-- The JSON game state returned by the Python API, with the fields
consumed by src/hooks/useGameState.js: board is the 9-entry array of
classical occupants (null for none), moves the full move list,
entanglements the entanglement list, move_count and current_player as
sent by the API.  An absent field is modelled by the empty list. -/
structure APIGameState where
  board : List (Option String)
  moves : List APIMove
  entanglements : List Entanglement
  move_count : Nat
  current_player : String
deriving DecidableEq, Repr

/-- One step of the first pass of buildBoardFromAPI
(src/hooks/useGameState.js lines 375 to 385): for each entry of the API
board array that is neither null nor undefined, the cell at that index
is marked classical, its occupant recorded, and its quantum move list
cleared.  Indexing outside the 9-cell array would throw in the source
and is modelled by none. -/
def setClassicalCell (ob : Option (List Cell)) (ip : Nat × Option String) :
    Option (List Cell) :=
  match ip.2 with
  | none => ob
  | some p =>
      ob.bind fun b =>
        if ip.1 < b.length then
          some (b.set ip.1
            { quantumMoveIds := []
              classicalMoveId := some p
              state := SquareState.classical })
        else none

/-- One step of the second pass of buildBoardFromAPI
(src/hooks/useGameState.js lines 388 to 399): an uncollapsed move's id
is pushed onto the quantum list of each of its squares, but only when
that cell is not classical.  Indexing outside the array is modelled by
none. -/
def addQuantumAtSquare (moveId : String) (ob : Option (List Cell))
    (sq : Nat) : Option (List Cell) :=
  ob.bind fun b =>
    match b.get? sq with
    | none => none
    | some cell =>
        if cell.state = SquareState.classical then some b
        else
          some (b.set sq
            { cell with
              quantumMoveIds := cell.quantumMoveIds ++ [moveId]
              state := SquareState.quantum })

/-- The second pass of buildBoardFromAPI for a single move: collapsed
moves are skipped, uncollapsed ones are added at each of their
squares. -/
def addQuantumMove (ob : Option (List Cell)) (m : APIMove) :
    Option (List Cell) :=
  if m.collapsed then ob
  else m.squares.foldl (addQuantumAtSquare m.move_id) ob

/-- Embedding of buildBoardFromAPI, updated version
(src/hooks/useGameState.js lines 367 to 404): start from 9 empty cells,
first mark all classical squares from the API board array, then add the
uncollapsed quantum moves to the remaining cells. -/
def buildBoardFromAPI (s : APIGameState) : Option (List Cell) :=
  let b0 := List.replicate 9 Cell.emptyCell
  let b1 := s.board.enum.foldl setClassicalCell (some b0)
  s.moves.foldl addQuantumMove b1

/-- The statistics record produced by calculateStats in
src/hooks/useGameState.js. -/
structure Stats where
  totalMoves : Nat
  quantumMoves : Nat
  classicalMoves : Nat
  entanglements : Nat
  emptySquares : Nat
  classicalSquares : Nat
  moveCount : Nat
deriving DecidableEq, Repr

/-- Embedding of calculateStats, updated version
(src/hooks/useGameState.js lines 409 to 427). -/
def calculateStats (s : APIGameState) : Stats :=
  { totalMoves := s.move_count
    quantumMoves := (s.moves.filter (fun m => !m.collapsed)).length
    classicalMoves := (s.moves.filter (fun m => m.collapsed)).length
    entanglements := s.entanglements.length
    emptySquares := (s.board.filter (fun sq => sq.isNone)).length
    classicalSquares := (s.board.filter (fun sq => sq.isSome)).length
    moveCount := s.move_count }

/-- The getState operation of the engine as seen by the UI: reading the
session state produces the derived board projection and statistics and
hands the session state back.  The source computations
(buildBoardFromAPI and calculateStats) only read their argument and
write into freshly allocated arrays, which this pure embedding
records. -/
def getState (s : APIGameState) :
    (Option (List Cell) × Stats) × APIGameState :=
  ((buildBoardFromAPI s, calculateStats s), s)

/-- Game status values from GAME_STATUS in src/types/gameTypes.js. -/
inductive GameStatus where
  | playing
  | waiting_collapse
  | x_wins
  | o_wins
  | draw
deriving DecidableEq, Repr

/-- Embedding of selectSquare, updated version
(src/hooks/useGameState.js lines 644 to 670).  The result is the new
selectedSquares list together with the flag that a quantum move is
executed (newSelection.length === 2); none models the TypeError thrown
when board[square] is undefined.  When the game is not in the playing
state, or the clicked square is classical, the handler returns with the
selection unchanged and no move executed. -/
def selectSquare (status : GameStatus) (board : List Cell)
    (selected : List Nat) (square : Nat) : Option (List Nat × Bool) :=
  if status ≠ GameStatus.playing then some (selected, false)
  else
    match board.get? square with
    | none => none
    | some squareData =>
        if squareData.state = SquareState.classical then
          some (selected, false)
        else
          let newSelection :=
            if selected.contains square then
              selected.erase square
            else if selected.length < 2 then
              selected ++ [square]
            else
              match selected with
              | _ :: s1 :: rest => s1 :: square :: rest
              | other => other
          some (newSelection, newSelection.length == 2)

/-- Embedding of the emptyCount computation of checkGameEnd, updated
version (src/hooks/useGameState.js lines 529 to 533): the number of
cells that are in the empty state or have no classical occupant. -/
def checkGameEndEmptyCount (board : List Cell) : Nat :=
  (board.filter
    (fun sq => sq.state == SquareState.empty || sq.classicalMoveId.isNone)).length

/-- Modelled from the spec: the two players of the Win Evaluator,
whose code (the Python API service) is not under src/. -/
inductive Player where
  | X
  | O
deriving DecidableEq, Repr

/-- Modelled from the spec: the board consumed by the Win Evaluator,
whose code (the Python API service) is not under src/.  Each of the 9
cells holds either nothing or a classical occupant together with the
sequence number of the move that produced it (the spec's evaluate takes
the board and the move history; the history is only consulted for these
sequence numbers, so they are attached to the occupants here). -/
abbrev EvalBoard : Type := List (Option (Player × Nat))

/-- Modelled from the spec: the classical occupant of a cell of an
evaluator board. -/
def cellPlayer (b : EvalBoard) (i : Nat) : Option Player :=
  (List.get? b i).bind (fun c => c.map Prod.fst)

/-- Modelled from the spec: the sequence number of the classical
occupant of a cell (0 when the
cell is empty). -/
def cellSeq (b : EvalBoard) (i : Nat) : Nat :=
  ((List.get? b i).bind id).elim 0 Prod.snd

/-- Modelled from the spec: a line qualifies for a player exactly when
all three of its cells are classical occupants of that player. -/
def lineQualifies (b : EvalBoard) (p : Player) (line : List Nat) : Bool :=
  line.all (fun i => cellPlayer b i == some p)

/-- Modelled from the spec: the qualifying lines of a player among the
8 fixed WINNING_LINES. -/
def qualifyingLines (b : EvalBoard) (p : Player) : List (List Nat) :=
  WINNING_LINES.filter (lineQualifies b p)

/-- Modelled from the spec: the sequence number of the move that last
completed a line, i.e. the highest sequence number among the line's
classical occupants. -/
def completingSeq (b : EvalBoard) (line : List Nat) : Nat :=
  (line.map (cellSeq b)).foldl max 0

/-- Modelled from the spec: the best qualifying line of a player, the
qualifying line completed earliest (minimal completing sequence
number); none when the player has no qualifying line. -/
def bestLine (b : EvalBoard) (p : Player) : Option (List Nat) :=
  (qualifyingLines b p).argmin (completingSeq b)

/-- Modelled from the spec: the number of non-classical cells, the
cells still eligible to take part in a new two-cell quantum move. -/
def countNonClassical (b : EvalBoard) : Nat :=
  (b.filter Option.isNone).length

/-- Modelled from the spec: the result record of the Win Evaluator
(whose code is not under src/), with the fields of the
getWinner interface (winner, winningLine, isDraw, isSimultaneous, the
two scores and the two per-player winning lines). -/
structure WinResult where
  winner : Option Player
  winningLine : List Nat
  isDraw : Bool
  isSimultaneous : Bool
  xScore : Rat
  oScore : Rat
  xWinningLine : List Nat
  oWinningLine : List Nat
deriving DecidableEq, Repr

/-- Modelled from the spec: the Win Evaluator (section 4.4), whose code
(the Python API service) is not under src/.  Exactly one player with a
qualifying line wins outright.  When both players have one, the win is
simultaneous: the player whose best line's completing move has the
lower sequence number receives 1.0 point, the other 0.5, both winning
lines are exposed, and isSimultaneous is set.  The tie on equal
completing sequence numbers is resolved in favour of X, a documented
modelling choice where the spec is silent.  A draw is declared when no
qualifying line exists and fewer than MIN_SQUARES_FOR_MOVE non-classical
cells remain. -/
def WinEvaluator.evaluate (b : EvalBoard) : WinResult :=
  match bestLine b Player.X, bestLine b Player.O with
  | some xl, some ol =>
      let xSeq := completingSeq b xl
      let oSeq := completingSeq b ol
      if xSeq ≤ oSeq then
        { winner := some Player.X, winningLine := xl, isDraw := false
          isSimultaneous := true, xScore := 1, oScore := 1 / 2
          xWinningLine := xl, oWinningLine := ol }
      else
        { winner := some Player.O, winningLine := ol, isDraw := false
          isSimultaneous := true, xScore := 1 / 2, oScore := 1
          xWinningLine := xl, oWinningLine := ol }
  | some xl, none =>
      { winner := some Player.X, winningLine := xl, isDraw := false
        isSimultaneous := false, xScore := 1, oScore := 0
        xWinningLine := xl, oWinningLine := [] }
  | none, some ol =>
      { winner := some Player.O, winningLine := ol, isDraw := false
        isSimultaneous := false, xScore := 0, oScore := 1
        xWinningLine := [], oWinningLine := ol }
  | none, none =>
      { winner := none, winningLine := []
        isDraw := decide (countNonClassical b < MIN_SQUARES_FOR_MOVE)
        isSimultaneous := false, xScore := 0, oScore := 0
        xWinningLine := [], oWinningLine := [] }

/-- Embedding of the status update performed by checkWinner, updated
version (src/hooks/useGameState.js lines 468 to 516): a reported winner
sets X_WINS or O_WINS, otherwise a reported draw sets DRAW, otherwise
the status is left unchanged. -/
def checkWinnerStatus (prev : GameStatus) (r : WinResult) : GameStatus :=
  match r.winner with
  | some w => if w = Player.X then GameStatus.x_wins else GameStatus.o_wins
  | none => if r.isDraw then GameStatus.draw else prev

/-- Strengthened per-cell invariant carried through the two passes of
buildBoardFromAPI: a cell is either classical with an occupant and no
quantum move ids, or non-classical with no occupant. -/
def CellOK (c : Cell) : Prop :=
  (c.state = SquareState.classical ∧ c.classicalMoveId ≠ none ∧
    c.quantumMoveIds = []) ∨
  (c.state ≠ SquareState.classical ∧ c.classicalMoveId = none)

/-- The invariant for an in-progress board of the builder: whenever it
has produced a board (rather than crashed), every cell satisfies
CellOK. -/
def BoardOK (ob : Option (List Cell)) : Prop :=
  ∀ b, ob = some b → ∀ c ∈ b, CellOK c

/-- The code point order on character lists is asymmetric. -/
theorem charListLt_asymm :
    ∀ xs ys, charListLt xs ys = true → charListLt ys xs = false := by
  intro xs
  induction xs with
  | nil =>
    intro ys h
    cases ys with
    | nil => simp [charListLt] at h
    | cons d ds => simp [charListLt]
  | cons c cs ih =>
    intro ys h
    cases ys with
    | nil => simp [charListLt] at h
    | cons d ds =>
      simp only [charListLt] at h ⊢
      by_cases h1 : c.toNat < d.toNat
      · rw [if_neg (Nat.lt_asymm h1), if_pos h1]
      · by_cases h2 : d.toNat < c.toNat
        · rw [if_neg h1, if_pos h2] at h
          exact absurd h (by simp)
        · rw [if_neg h1, if_neg h2] at h
          rw [if_neg h2, if_neg h1]
          exact ih ds h

/-- Two character lists neither of which precedes the other are
equal. -/
theorem charListLt_conn :
    ∀ xs ys, charListLt xs ys = false → charListLt ys xs = false →
      xs = ys := by
  intro xs
  induction xs with
  | nil =>
    intro ys h1 _
    cases ys with
    | nil => rfl
    | cons d ds => simp [charListLt] at h1
  | cons c cs ih =>
    intro ys h1 h2
    cases ys with
    | nil => simp [charListLt] at h2
    | cons d ds =>
      simp only [charListLt] at h1 h2
      by_cases hcd : c.toNat < d.toNat
      · rw [if_pos hcd] at h1
        exact absurd h1 (by simp)
      · by_cases hdc : d.toNat < c.toNat
        · rw [if_pos hdc] at h2
          exact absurd h2 (by simp)
        · rw [if_neg hcd, if_neg hdc] at h1
          rw [if_neg hdc, if_neg hcd] at h2
          have hc : c = d := Char.eq_of_val_eq (UInt32.ext
            (Nat.le_antisymm (Nat.le_of_not_lt hdc) (Nat.le_of_not_lt hcd)))
          rw [hc, ih ds h1 h2]

/-- The JavaScript string comparison is asymmetric. -/
theorem jsStrLt_asymm (a b : String) :
    jsStrLt a b = true → jsStrLt b a = false :=
  charListLt_asymm a.data b.data

/-- Two strings neither of which precedes the other are equal. -/
theorem jsStrLt_conn (a b : String) :
    jsStrLt a b = false → jsStrLt b a = false → a = b := by
  intro h1 h2
  cases a with
  | mk da =>
    cases b with
    | mk db => exact congrArg String.mk (charListLt_conn da db h1 h2)

/-- C7: constructing an Entanglement with the two move ids swapped
yields an identical record: same id, same move1Id, same move2Id, same
sharedSquare. -/
theorem entanglement_make_comm (a b : String) (s : Nat) :
    Entanglement.make a b s = Entanglement.make b a s := by
  simp only [Entanglement.make]
  by_cases h1 : jsStrLt b a
  · by_cases h2 : jsStrLt a b
    · exact absurd (jsStrLt_asymm a b h2) (by simp [h1])
    · simp [h1, h2]
  · by_cases h2 : jsStrLt a b
    · simp [h1, h2]
    · have hab : a = b :=
        jsStrLt_conn a b (by simpa using h2) (by simpa using h1)
      rw [hab]

/-- C8: reading the game state is idempotent and side-effect free: the
getState operation hands the session state back unchanged, and reading
again produces an identical snapshot; in particular buildBoardFromAPI
and calculateStats give equal results on the unchanged state. -/
theorem getState_idempotent (s : APIGameState) :
    (getState s).2 = s ∧
    (getState ((getState s).2)).1 = (getState s).1 ∧
    buildBoardFromAPI ((getState s).2) = buildBoardFromAPI s ∧
    calculateStats ((getState s).2) = calculateStats s :=
  ⟨rfl, rfl, rfl, rfl⟩

/-- C10: the collapse-choosing player of an entanglement cycle is O
when the trigger move's player is X and X otherwise, and is never the
player who triggered the cycle. -/
theorem getCollapsePlayer_opponent (moveIds : List String)
    (ents : List Entanglement) (tid : String) :
    ((EntanglementCycle.make moveIds ents tid).triggerPlayer = PLAYERS.X →
      (EntanglementCycle.make moveIds ents tid).getCollapsePlayer = PLAYERS.O) ∧
    ((EntanglementCycle.make moveIds ents tid).triggerPlayer ≠ PLAYERS.X →
      (EntanglementCycle.make moveIds ents tid).getCollapsePlayer = PLAYERS.X) ∧
    (EntanglementCycle.make moveIds ents tid).getCollapsePlayer ≠
      (EntanglementCycle.make moveIds ents tid).triggerPlayer := by
  simp only [EntanglementCycle.make, EntanglementCycle.getCollapsePlayer,
    PLAYERS.X, PLAYERS.O]
  by_cases h : tid.take 1 = "X"
  · refine ⟨fun _ => by rw [if_pos h], fun hn => absurd h hn, ?_⟩
    rw [if_pos h, h]
    decide
  · refine ⟨fun hx => absurd hx h, fun _ => by rw [if_neg h], ?_⟩
    rw [if_neg h]
    exact fun heq => h heq.symm

/-- Witness for C10 at the concrete cycle triggered by move X2: the
collapse chooser is O, not the triggering player X. -/
theorem getCollapsePlayer_opponent_witness :
    (EntanglementCycle.make ["X1", "O1", "X2"] [] "X2").getCollapsePlayer =
      PLAYERS.O ∧
    (EntanglementCycle.make ["X1", "O1", "X2"] [] "X2").getCollapsePlayer ≠
      (EntanglementCycle.make ["X1", "O1", "X2"] [] "X2").triggerPlayer :=
  ⟨(getCollapsePlayer_opponent ["X1", "O1", "X2"] [] "X2").1 (by decide),
   (getCollapsePlayer_opponent ["X1", "O1", "X2"] [] "X2").2.2⟩

/-- C2 counterexample: a move on squares 0 and 4, already resolved onto
square 0, is re-assigned to square 4 by a second collapse call — the
source checks only square membership, not the collapsed flag. -/
theorem collapse_reassigns_counterexample :
    ((QuantumMove.make "X" 1 [0, 4]).bind (fun m => m.collapse 0)).map
        (fun m => (m.collapsed, m.finalSquare)) = some (true, some 0) ∧
    (((QuantumMove.make "X" 1 [0, 4]).bind (fun m => m.collapse 0)).bind
        (fun m => m.collapse 4)).map
        (fun m => (m.collapsed, m.finalSquare)) = some (true, some 4) := by
  constructor <;> decide

/-- Helper: collapse produces a move exactly when the given square is
one of the move's squares; the collapsed flag plays no role. -/
theorem collapse_some_iff (m : QuantumMove) (sq : Int) :
    (m.collapse sq).isSome ↔ sq ∈ m.squares := by
  unfold QuantumMove.collapse QuantumMove.hasSquare
  by_cases h : sq ∈ m.squares
  · rw [if_pos (by simpa using h)]
    simpa using h
  · rw [if_neg (by simpa using h)]
    simpa using h

/-- Helper: collapse fails exactly when the given square is not one of
the move's squares. -/
theorem collapse_none_iff (m : QuantumMove) (sq : Int) :
    m.collapse sq = none ↔ sq ∉ m.squares := by
  rw [← Option.not_isSome_iff_eq_none, not_iff_not]
  exact collapse_some_iff m sq

/-- Helper: a successful collapse sets the collapsed flag, assigns
finalSquare to the given square, and changes nothing else. -/
theorem collapse_some_eq (m m2 : QuantumMove) (sq : Int)
    (h : m.collapse sq = some m2) :
    m2.collapsed = true ∧ m2.finalSquare = some sq ∧
    m2.squares = m.squares ∧ m2.id = m.id ∧ m2.player = m.player ∧
    m2.moveNumber = m.moveNumber := by
  unfold QuantumMove.collapse at h
  by_cases hs : m.hasSquare sq
  · rw [if_pos hs] at h
    injection h with h
    subst h
    exact ⟨rfl, rfl, rfl, rfl, rfl, rfl⟩
  · rw [if_neg hs] at h
    exact Option.noConfusion h

/-- C2 amended: collapse succeeds exactly when the given square is one
of the move's squares, regardless of whether the move is already
resolved; a successful collapse sets the collapsed flag and re-assigns
finalSquare to the given square (leaving the square pair unchanged), so
a resolved move is not immutable. -/
theorem collapse_ignores_resolved (m : QuantumMove) (sq : Int) :
    ((m.collapse sq).isSome ↔ sq ∈ m.squares) ∧
    (∀ m2, m.collapse sq = some m2 →
      m2.collapsed = true ∧ m2.finalSquare = some sq ∧
      m2.squares = m.squares) ∧
    (m.collapsed = true → sq ∈ m.squares → (m.collapse sq).isSome) := by
  refine ⟨collapse_some_iff m sq, ?_,
    fun _ h => (collapse_some_iff m sq).mpr h⟩
  intro m2 hm2
  have h := collapse_some_eq m m2 sq hm2
  exact ⟨h.1, h.2.1, h.2.2.1⟩

/-- Witness for C2 amended: the already-resolved move on squares 0 and
4 (resolved onto 0) accepts a collapse onto 4 and ends with
finalSquare 4. -/
theorem collapse_ignores_resolved_witness :
    (QuantumMove.mk "X1" "X" 1 [0, 4] true (some 0)).collapse 4 =
      some (QuantumMove.mk "X1" "X" 1 [0, 4] true (some 4)) ∧
    (QuantumMove.mk "X1" "X" 1 [0, 4] true (some 0)).collapsed = true ∧
    ((QuantumMove.mk "X1" "X" 1 [0, 4] true (some 0)).collapse 4).isSome := by
  refine ⟨by rfl, rfl, ?_⟩
  exact (collapse_ignores_resolved
    (QuantumMove.mk "X1" "X" 1 [0, 4] true (some 0)) 4).2.2 rfl (by decide)

/-- C5 counterexample: the QuantumMove constructor accepts the squares
0 and 99 even though 99 is not an in-range cell index (as
isValidQuantumMove confirms), so construction with out-of-range squares
is not rejected. -/
theorem quantum_move_ctor_range_counterexample :
    (QuantumMove.make "X" 1 [0, 99]).isSome = true ∧
    isValidQuantumMove [0, 99] = false := by
  constructor <;> decide

/-- C5 amended: the QuantumMove constructor rejects exactly the square
lists that do not consist of two distinct entries (range is not
checked there); isValidQuantumMove accepts exactly two distinct
in-range squares; and selectSquare never adds a classical square to a
selection: clicking one leaves the selection unchanged and triggers no
move. -/
theorem make_quantum_move_validation (p : String) (n : Nat)
    (squares : List Int) :
    ((QuantumMove.make p n squares).isSome ↔
      ∃ a b, squares = [a, b] ∧ a ≠ b) ∧
    (isValidQuantumMove squares = true ↔
      ∃ a b, squares = [a, b] ∧ a ≠ b ∧
        0 ≤ a ∧ a ≤ 8 ∧ 0 ≤ b ∧ b ≤ 8) ∧
    (∀ (status : GameStatus) (board : List Cell) (sel : List Nat)
        (sq : Nat) (cell : Cell),
      board.get? sq = some cell → cell.state = SquareState.classical →
      selectSquare status board sel sq = some (sel, false)) := by
  refine ⟨?_, ?_, ?_⟩
  · rcases squares with _ | ⟨a, _ | ⟨b, _ | ⟨c, rest⟩⟩⟩
    · simp [QuantumMove.make]
    · simp [QuantumMove.make]
    · by_cases h : a = b
      · subst h
        simp [QuantumMove.make]
      · simp only [QuantumMove.make, if_neg h, Option.isSome_some,
          true_iff]
        exact ⟨a, b, rfl, h⟩
    · simp [QuantumMove.make]
  · rcases squares with _ | ⟨a, _ | ⟨b, _ | ⟨c, rest⟩⟩⟩
    · simp [isValidQuantumMove]
    · simp [isValidQuantumMove]
    · constructor
      · intro h
        simp only [isValidQuantumMove, isValidSquare, List.all_cons,
          List.all_nil, Bool.and_true, Bool.and_eq_true, beq_iff_eq,
          bne_iff_ne, decide_eq_true_eq, List.length_cons,
          List.length_nil] at h
        refine ⟨a, b, rfl, ?_, h.1.2.1.1, h.1.2.1.2, h.1.2.2.1,
          h.1.2.2.2⟩
        simpa using h.2
      · rintro ⟨x, y, hxy, hne, hx0, hx8, hy0, hy8⟩
        injection hxy with h1 h2
        injection h2 with h2 h3
        subst h1
        subst h2
        simp [isValidQuantumMove, isValidSquare, hx0, hx8, hy0, hy8, hne]
    · constructor
      · intro h
        simp [isValidQuantumMove] at h
      · rintro ⟨x, y, hxy, _⟩
        injection hxy with h1 h2
        injection h2 with h2 h3
        exact List.noConfusion h3
  · intro status board sel sq cell hget hcl
    unfold selectSquare
    by_cases hs : status = GameStatus.playing
    · rw [if_neg (not_not_intro hs), hget]
      simp [hcl]
    · rw [if_pos hs]

/-- Witness for C5 amended at concrete inputs: the constructor accepts
the distinct in-range pair 0 and 4, isValidQuantumMove accepts it, and
clicking the classical cell 0 of a one-cell board leaves the selection
unchanged with no move triggered. -/
theorem make_quantum_move_validation_witness :
    (QuantumMove.make "X" 1 [0, 4]).isSome = true ∧
    isValidQuantumMove [0, 4] = true ∧
    selectSquare GameStatus.playing
      [Cell.mk [] (some "X") SquareState.classical] [3] 0 =
      some ([3], false) := by
  refine ⟨?_, ?_, ?_⟩
  · exact (make_quantum_move_validation "X" 1 [0, 4]).1.mpr
      ⟨0, 4, rfl, by decide⟩
  · exact (make_quantum_move_validation "X" 1 [0, 4]).2.1.mpr
      ⟨0, 4, rfl, by decide, by decide, by decide, by decide, by decide⟩
  · exact (make_quantum_move_validation "X" 1 [0, 4]).2.2
      GameStatus.playing [Cell.mk [] (some "X") SquareState.classical]
      [3] 0 (Cell.mk [] (some "X") SquareState.classical) rfl rfl

/-- C6 counterexample: the constructor accepts squares 3 and 42, which
yields an unresolved move whose square list is not made of valid cell
indices, refuting that every unresolved move holds 2 distinct valid
cell indices. -/
theorem unresolved_move_out_of_range_counterexample :
    (QuantumMove.make "X" 2 [3, 42]).map
      (fun m => (m.collapsed, m.squares, m.squares.all isValidSquare)) =
    some (false, [3, 42], false) := by
  decide

/-- C6 amended: every move the constructor produces is unresolved with
exactly 2 distinct squares holding the same elements as the input
(in-range validity is only guaranteed by the separate
isValidQuantumMove check); a successful collapse assigns finalSquare to
one of the move's original squares and leaves the square pair
unchanged, and collapse onto any other square is rejected with no
mutation. -/
theorem quantum_move_invariants :
    (∀ (p : String) (n : Nat) (squares : List Int) (m : QuantumMove),
      QuantumMove.make p n squares = some m →
      m.squares.length = 2 ∧ m.squares.Nodup ∧ m.collapsed = false ∧
      m.finalSquare = none ∧ ∀ x, x ∈ m.squares ↔ x ∈ squares) ∧
    (∀ (m m2 : QuantumMove) (sq : Int), m.collapse sq = some m2 →
      sq ∈ m.squares ∧ m2.finalSquare = some sq ∧
      m2.squares = m.squares) ∧
    (∀ (m : QuantumMove) (sq : Int), m.collapse sq = none →
      sq ∉ m.squares) := by
  refine ⟨?_, ?_, ?_⟩
  · intro p n squares m hm
    rcases squares with _ | ⟨a, _ | ⟨b, _ | ⟨c, rest⟩⟩⟩
    · exact absurd hm (by simp [QuantumMove.make])
    · exact absurd hm (by simp [QuantumMove.make])
    · by_cases h : a = b
      · subst h
        exact absurd hm (by simp [QuantumMove.make])
      · simp only [QuantumMove.make, if_neg h] at hm
        injection hm with hm
        subst hm
        refine ⟨?_, ?_, rfl, rfl, ?_⟩
        · unfold jsSort2
          split_ifs <;> rfl
        · unfold jsSort2
          split_ifs <;> simp [h, Ne.symm h]
        · intro x
          unfold jsSort2
          split_ifs <;> simp [or_comm]
    · exact absurd hm (by simp [QuantumMove.make])
  · intro m m2 sq hm
    have h := collapse_some_eq m m2 sq hm
    have hs : sq ∈ m.squares := by
      have : (m.collapse sq).isSome := by
        rw [hm]
        rfl
      exact (collapse_some_iff m sq).mp this
    exact ⟨hs, h.2.1, h.2.2.1⟩
  · intro m sq hm
    exact (collapse_none_iff m sq).mp hm

/-- Witness for C6 amended: the constructor applied to squares 4 and 0
produces the unresolved move on the sorted pair 0, 4; its square list
has 2 distinct entries and collapsing onto 4 keeps the pair and sets
finalSquare 4. -/
theorem quantum_move_invariants_witness :
    (QuantumMove.mk "X1" "X" 1 [0, 4] false none).squares.length = 2 ∧
    (QuantumMove.mk "X1" "X" 1 [0, 4] false none).squares.Nodup ∧
    (4 : Int) ∈ (QuantumMove.mk "X1" "X" 1 [0, 4] false none).squares ∧
    (QuantumMove.mk "X1" "X" 1 [0, 4] true (some 4)).squares =
      (QuantumMove.mk "X1" "X" 1 [0, 4] false none).squares := by
  have h1 := quantum_move_invariants.1 "X" 1 [4, 0]
    (QuantumMove.mk "X1" "X" 1 [0, 4] false none) (by decide)
  have h2 := quantum_move_invariants.2.1
    (QuantumMove.mk "X1" "X" 1 [0, 4] false none)
    (QuantumMove.mk "X1" "X" 1 [0, 4] true (some 4)) 4 (by decide)
  exact ⟨h1.1, h1.2.1, h2.1, h2.2.2⟩

/-- C9: WINNING_LINES holds exactly the 8 three-in-a-row lines of the
3x3 board (3 rows, 3 columns, 2 diagonals), each made of 3 distinct
in-range cell indices; a line qualifies for a player exactly when all
three of its cells are classical occupants of that player, and the
qualifying lines are always drawn from WINNING_LINES. -/
theorem winning_lines_correct :
    WINNING_LINES =
      [[0, 1, 2], [3, 4, 5], [6, 7, 8], [0, 3, 6], [1, 4, 7],
       [2, 5, 8], [0, 4, 8], [2, 4, 6]] ∧
    WINNING_LINES.length = 8 ∧
    (∀ l ∈ WINNING_LINES, l.length = 3 ∧ l.Nodup ∧ ∀ i ∈ l, i < 9) ∧
    (∀ (b : EvalBoard) (p : Player) (line : List Nat),
      lineQualifies b p line = true ↔
        ∀ i ∈ line, cellPlayer b i = some p) ∧
    (∀ (b : EvalBoard) (p : Player) (l : List Nat),
      l ∈ qualifyingLines b p ↔
        l ∈ WINNING_LINES ∧ lineQualifies b p l = true) := by
  refine ⟨rfl, rfl, by decide, ?_, ?_⟩
  · intro b p line
    simp [lineQualifies, List.all_eq_true]
  · intro b p l
    simp [qualifyingLines, List.mem_filter]

/-- Witness for C9 on a concrete board where X classically occupies the
top row: that row qualifies for X and is one of the 8 lines. -/
theorem winning_lines_correct_witness :
    WINNING_LINES.length = 8 ∧
    lineQualifies
      [some (Player.X, 1), some (Player.X, 2), some (Player.X, 3),
       none, none, none, none, none, none] Player.X [0, 1, 2] = true ∧
    [0, 1, 2] ∈ qualifyingLines
      [some (Player.X, 1), some (Player.X, 2), some (Player.X, 3),
       none, none, none, none, none, none] Player.X := by
  refine ⟨winning_lines_correct.2.1, ?_, ?_⟩
  · exact (winning_lines_correct.2.2.2.1
      [some (Player.X, 1), some (Player.X, 2), some (Player.X, 3),
       none, none, none, none, none, none] Player.X [0, 1, 2]).mpr
      (by decide)
  · exact (winning_lines_correct.2.2.2.2
      [some (Player.X, 1), some (Player.X, 2), some (Player.X, 3),
       none, none, none, none, none, none] Player.X [0, 1, 2]).mpr
      ⟨by decide,
       (winning_lines_correct.2.2.2.1
        [some (Player.X, 1), some (Player.X, 2), some (Player.X, 3),
         none, none, none, none, none, none] Player.X [0, 1, 2]).mpr
        (by decide)⟩

/-- C4: the draw threshold is exactly MIN_SQUARES_FOR_MOVE = 2, and
whenever neither player has a qualifying line and fewer than
MIN_SQUARES_FOR_MOVE non-classical cells remain, the evaluator reports
a draw with no winner and the status update sets DRAW. -/
theorem draw_rule :
    MIN_SQUARES_FOR_MOVE = 2 ∧
    ∀ (b : EvalBoard) (prev : GameStatus),
      qualifyingLines b Player.X = [] →
      qualifyingLines b Player.O = [] →
      countNonClassical b < MIN_SQUARES_FOR_MOVE →
      (WinEvaluator.evaluate b).isDraw = true ∧
      (WinEvaluator.evaluate b).winner = none ∧
      checkWinnerStatus prev (WinEvaluator.evaluate b) =
        GameStatus.draw := by
  refine ⟨rfl, ?_⟩
  intro b prev hx ho hc
  have hbx : bestLine b Player.X = none := by
    rw [bestLine, hx]
    exact List.argmin_nil _
  have hbo : bestLine b Player.O = none := by
    rw [bestLine, ho]
    exact List.argmin_nil _
  have he : WinEvaluator.evaluate b =
      { winner := none, winningLine := []
        isDraw := decide (countNonClassical b < MIN_SQUARES_FOR_MOVE)
        isSimultaneous := false, xScore := 0, oScore := 0
        xWinningLine := [], oWinningLine := [] } := by
    unfold WinEvaluator.evaluate
    rw [hbx, hbo]
  rw [he]
  refine ⟨by simpa using hc, rfl, ?_⟩
  simp [checkWinnerStatus, hc]

/-- Witness for C4 on a concrete fully classical board with no
three-in-a-row: the evaluator declares a draw and the status becomes
DRAW. -/
theorem draw_rule_witness :
    (WinEvaluator.evaluate
      [some (Player.X, 1), some (Player.O, 2), some (Player.X, 3),
       some (Player.X, 5), some (Player.O, 4), some (Player.O, 6),
       some (Player.O, 7), some (Player.X, 8), some (Player.X, 9)]).isDraw
      = true ∧
    checkWinnerStatus GameStatus.playing
      (WinEvaluator.evaluate
        [some (Player.X, 1), some (Player.O, 2), some (Player.X, 3),
         some (Player.X, 5), some (Player.O, 4), some (Player.O, 6),
         some (Player.O, 7), some (Player.X, 8), some (Player.X, 9)]) =
      GameStatus.draw := by
  have h := draw_rule.2
    [some (Player.X, 1), some (Player.O, 2), some (Player.X, 3),
     some (Player.X, 5), some (Player.O, 4), some (Player.O, 6),
     some (Player.O, 7), some (Player.X, 8), some (Player.X, 9)]
    GameStatus.playing (by decide) (by decide) (by decide)
  exact ⟨h.1, h.2.2⟩

/-- C1: when both players have a qualifying line, the evaluation is a
simultaneous win: both best winning lines are exposed separately,
isSimultaneous is set, and the player whose best line's completing move
has the lower sequence number receives exactly 1.0 point while the
other receives exactly 0.5 point. -/
theorem simultaneous_win_tiebreak (b : EvalBoard)
    (hx : qualifyingLines b Player.X ≠ [])
    (ho : qualifyingLines b Player.O ≠ []) :
    ∃ xl ol,
      bestLine b Player.X = some xl ∧ bestLine b Player.O = some ol ∧
      xl ∈ qualifyingLines b Player.X ∧ ol ∈ qualifyingLines b Player.O ∧
      (WinEvaluator.evaluate b).isSimultaneous = true ∧
      (WinEvaluator.evaluate b).isDraw = false ∧
      (WinEvaluator.evaluate b).xWinningLine = xl ∧
      (WinEvaluator.evaluate b).oWinningLine = ol ∧
      (completingSeq b xl < completingSeq b ol →
        (WinEvaluator.evaluate b).xScore = 1 ∧
        (WinEvaluator.evaluate b).oScore = 1 / 2 ∧
        (WinEvaluator.evaluate b).winner = some Player.X) ∧
      (completingSeq b ol < completingSeq b xl →
        (WinEvaluator.evaluate b).oScore = 1 ∧
        (WinEvaluator.evaluate b).xScore = 1 / 2 ∧
        (WinEvaluator.evaluate b).winner = some Player.O) := by
  obtain ⟨xl, hbx⟩ : ∃ xl, bestLine b Player.X = some xl := by
    cases h : bestLine b Player.X with
    | none => exact absurd (List.argmin_eq_none.mp h) hx
    | some v => exact ⟨v, rfl⟩
  obtain ⟨ol, hbo⟩ : ∃ ol, bestLine b Player.O = some ol := by
    cases h : bestLine b Player.O with
    | none => exact absurd (List.argmin_eq_none.mp h) ho
    | some v => exact ⟨v, rfl⟩
  have hmemx : xl ∈ qualifyingLines b Player.X := by
    apply List.argmin_mem (f := completingSeq b)
    rw [Option.mem_def]
    exact hbx
  have hmemo : ol ∈ qualifyingLines b Player.O := by
    apply List.argmin_mem (f := completingSeq b)
    rw [Option.mem_def]
    exact hbo
  have he : WinEvaluator.evaluate b =
      if completingSeq b xl ≤ completingSeq b ol then
        { winner := some Player.X, winningLine := xl, isDraw := false
          isSimultaneous := true, xScore := 1, oScore := 1 / 2
          xWinningLine := xl, oWinningLine := ol }
      else
        { winner := some Player.O, winningLine := ol, isDraw := false
          isSimultaneous := true, xScore := 1 / 2, oScore := 1
          xWinningLine := xl, oWinningLine := ol } := by
    unfold WinEvaluator.evaluate
    rw [hbx, hbo]
  refine ⟨xl, ol, hbx, hbo, hmemx, hmemo, ?_, ?_, ?_, ?_, ?_, ?_⟩
  all_goals rw [he]
  · split_ifs <;> rfl
  · split_ifs <;> rfl
  · split_ifs <;> rfl
  · split_ifs <;> rfl
  · intro hlt
    split_ifs with hle
    · exact ⟨rfl, rfl, rfl⟩
    · exact absurd (le_of_lt hlt) hle
  · intro hlt
    split_ifs with hle
    · exact absurd hle (not_le.mpr hlt)
    · exact ⟨rfl, rfl, rfl⟩

/-- Witness for C1 on a concrete simultaneous win: X's top row is
completed by the move with sequence number 5, O's middle row by
sequence number 6, so X receives 1.0 and O 0.5, with both winning lines
exposed. -/
theorem simultaneous_win_tiebreak_witness :
    (WinEvaluator.evaluate
      [some (Player.X, 1), some (Player.X, 3), some (Player.X, 5),
       some (Player.O, 2), some (Player.O, 4), some (Player.O, 6),
       none, none, none]).isSimultaneous = true ∧
    (WinEvaluator.evaluate
      [some (Player.X, 1), some (Player.X, 3), some (Player.X, 5),
       some (Player.O, 2), some (Player.O, 4), some (Player.O, 6),
       none, none, none]).xScore = 1 ∧
    (WinEvaluator.evaluate
      [some (Player.X, 1), some (Player.X, 3), some (Player.X, 5),
       some (Player.O, 2), some (Player.O, 4), some (Player.O, 6),
       none, none, none]).oScore = 1 / 2 ∧
    (WinEvaluator.evaluate
      [some (Player.X, 1), some (Player.X, 3), some (Player.X, 5),
       some (Player.O, 2), some (Player.O, 4), some (Player.O, 6),
       none, none, none]).xWinningLine = [0, 1, 2] ∧
    (WinEvaluator.evaluate
      [some (Player.X, 1), some (Player.X, 3), some (Player.X, 5),
       some (Player.O, 2), some (Player.O, 4), some (Player.O, 6),
       none, none, none]).oWinningLine = [3, 4, 5] := by
  obtain ⟨xl, ol, hbx, hbo, _, _, hsim, _, hxw, how, hlt, _⟩ :=
    simultaneous_win_tiebreak
      [some (Player.X, 1), some (Player.X, 3), some (Player.X, 5),
       some (Player.O, 2), some (Player.O, 4), some (Player.O, 6),
       none, none, none] (by decide) (by decide)
  have hxl : xl = [0, 1, 2] := by
    have h2 : bestLine
        [some (Player.X, 1), some (Player.X, 3), some (Player.X, 5),
         some (Player.O, 2), some (Player.O, 4), some (Player.O, 6),
         none, none, none] Player.X = some [0, 1, 2] := by decide
    rw [h2] at hbx
    injection hbx with hbx
    exact hbx.symm
  have hol : ol = [3, 4, 5] := by
    have h2 : bestLine
        [some (Player.X, 1), some (Player.X, 3), some (Player.X, 5),
         some (Player.O, 2), some (Player.O, 4), some (Player.O, 6),
         none, none, none] Player.O = some [3, 4, 5] := by decide
    rw [h2] at hbo
    injection hbo with hbo
    exact hbo.symm
  subst hxl
  subst hol
  have hs := hlt (by decide)
  exact ⟨hsim, hs.1, hs.2.1, hxw, how⟩

/-- Helper: a fold whose every step preserves BoardOK preserves it
overall. -/
theorem boardOK_foldl {α : Type}
    (f : Option (List Cell) → α → Option (List Cell))
    (hf : ∀ ob a, BoardOK ob → BoardOK (f ob a)) :
    ∀ (l : List α) (ob : Option (List Cell)),
      BoardOK ob → BoardOK (l.foldl f ob) := by
  intro l
  induction l with
  | nil => exact fun ob h => h
  | cons a t ih => exact fun ob h => ih (f ob a) (hf ob a h)

/-- Helper: marking a classical square preserves BoardOK. -/
theorem boardOK_setClassical :
    ∀ ob ip, BoardOK ob → BoardOK (setClassicalCell ob ip) := by
  intro ob ip h b hb
  unfold setClassicalCell at hb
  split at hb
  · exact h b hb
  · cases ob with
    | none => rw [Option.none_bind] at hb; exact Option.noConfusion hb
    | some b0 =>
      rw [Option.some_bind] at hb
      split_ifs at hb with hlen
      · injection hb with hb
        subst hb
        intro c hc
        rcases List.mem_or_eq_of_mem_set hc with hmem | heq
        · exact h b0 rfl c hmem
        · subst heq
          left
          exact ⟨rfl, by simp, rfl⟩

/-- Helper: adding a quantum move id at one square preserves
BoardOK. -/
theorem boardOK_addQuantumAtSquare (moveId : String) :
    ∀ ob sq, BoardOK ob → BoardOK (addQuantumAtSquare moveId ob sq) := by
  intro ob sq h b hb
  unfold addQuantumAtSquare at hb
  cases ob with
  | none => rw [Option.none_bind] at hb; exact Option.noConfusion hb
  | some b0 =>
    rw [Option.some_bind] at hb
    split at hb
    · exact Option.noConfusion hb
    · rename_i cell hg
      split_ifs at hb with hcl
      · injection hb with hb
        subst hb
        exact h b0 rfl
      · injection hb with hb
        subst hb
        intro c hc
        rcases List.mem_or_eq_of_mem_set hc with hmem | heq
        · exact h b0 rfl c hmem
        · subst heq
          have hcell := h b0 rfl cell (List.get?_mem hg)
          rcases hcell with ⟨hst, _, _⟩ | ⟨_, hid⟩
          · exact absurd hst hcl
          · right
            refine ⟨?_, hid⟩
            simp

/-- Helper: the per-move pass of the board builder preserves
BoardOK. -/
theorem boardOK_addQuantumMove :
    ∀ ob m, BoardOK ob → BoardOK (addQuantumMove ob m) := by
  intro ob m h
  unfold addQuantumMove
  by_cases hc : m.collapsed = true
  · rw [if_pos hc]
    exact h
  · rw [if_neg hc]
    exact boardOK_foldl (addQuantumAtSquare m.move_id)
      (boardOK_addQuantumAtSquare m.move_id) m.squares ob h

/-- C3: every board cell produced by buildBoardFromAPI holds either
quantum move ids or a classical occupant, never both: a cell with a
classical occupant has no quantum move ids, and a cell with quantum
move ids has no classical occupant. -/
theorem board_cell_exclusive (s : APIGameState) (b : List Cell) :
    buildBoardFromAPI s = some b →
    ∀ c ∈ b,
      (c.classicalMoveId ≠ none → c.quantumMoveIds = []) ∧
      (c.quantumMoveIds ≠ [] → c.classicalMoveId = none) := by
  intro hb c hc
  have h0 : BoardOK (some (List.replicate 9 Cell.emptyCell)) := by
    intro b0 hb0 c0 hc0
    injection hb0 with hb0
    subst hb0
    have hc0e := List.eq_of_mem_replicate hc0
    subst hc0e
    right
    exact ⟨by decide, rfl⟩
  have h1 := boardOK_foldl setClassicalCell boardOK_setClassical
    s.board.enum (some (List.replicate 9 Cell.emptyCell)) h0
  have h2 := boardOK_foldl addQuantumMove boardOK_addQuantumMove
    s.moves (s.board.enum.foldl setClassicalCell
      (some (List.replicate 9 Cell.emptyCell))) h1
  have hOK := h2 b hb c hc
  rcases hOK with ⟨_, hsome, hids⟩ | ⟨_, hnone⟩
  · exact ⟨fun _ => hids, fun hq => absurd hids hq⟩
  · exact ⟨fun hcm => absurd hnone hcm, fun _ => hnone⟩

/-- Witness for C3 on a concrete API state with one classical square
and one uncollapsed quantum move: the classical cell carries no
quantum ids and the quantum cell carries no occupant. -/
theorem board_cell_exclusive_witness :
    (Cell.mk [] (some "X") SquareState.classical).quantumMoveIds = [] ∧
    (Cell.mk ["O1"] none SquareState.quantum).classicalMoveId = none := by
  have h := board_cell_exclusive
    (APIGameState.mk
      [some "X", none, none, none, none, none, none, none, none]
      [APIMove.mk "O1" "O" [0, 1] false] [] 2 "X")
    [Cell.mk [] (some "X") SquareState.classical,
     Cell.mk ["O1"] none SquareState.quantum,
     Cell.emptyCell, Cell.emptyCell, Cell.emptyCell, Cell.emptyCell,
     Cell.emptyCell, Cell.emptyCell, Cell.emptyCell]
    (by decide)
  exact ⟨(h (Cell.mk [] (some "X") SquareState.classical)
      (by decide)).1 (by decide),
    (h (Cell.mk ["O1"] none SquareState.quantum)
      (by decide)).2 (by decide)⟩
